import Mathlib

/-!
Verification of the CineCasal watchlist/challenge application core.

The TypeScript source (App component, TMDB service, RatingModal) is shallowly
embedded: React state updates become pure functions on an explicit `AppState`,
`Math.random()` draws become explicit index parameters reduced modulo the pool
size, `Date.now()` and `crypto.randomUUID()` become explicit parameters, and
JavaScript `parseInt` / truthiness / `Array.sort` semantics are modelled
explicitly (`parseIntJs`, NaN-as-`Option`, a stable sort).
-/

/-- `StreamingPlatform` values are the seven platform strings; `Option` models
the `null` member of the TS union and the optional field. -/
abbrev StreamingPlatform := Option String

/-- `Movie` from types.ts. Timestamps are JS numbers, modelled as `Int`. -/
structure Movie where
  id : String
  tmdbId : Option Int
  title : String
  year : String
  genre : List String
  description : String
  imageUrl : String
  isWatched : Bool
  rating : Option Int
  userReview : Option String
  addedAt : Int
  watchedAt : Option Int
  platform : StreamingPlatform
  pickedBy : Option String
  tags : List String
deriving DecidableEq, Repr

/-- `ChallengeRecord` from types-adjacent code in the App component. -/
structure ChallengeRecord where
  id : String
  movieId : String
  movieTitle : String
  posterPath : String
  completedAt : Int
  ratingGiven : Int
deriving DecidableEq, Repr

/-- The App component's state slices relevant to the claims: the `movies`
list, the `activeChallengeId` (`null` = `none`), and the `challengeHistory`. -/
structure AppState where
  movies : List Movie
  activeChallengeId : Option String
  challengeHistory : List ChallengeRecord
deriving DecidableEq, Repr

/-- `removeMovie` (App.tsx / part_000): inside the `confirm` guard it filters
the entry with the given id out of `movies` and, when that id is the active
challenge target, clears the active challenge. `confirmed` models the result
of the `confirm(...)` dialog. -/
def removeMovie (confirmed : Bool) (id : String) (s : AppState) : AppState :=
  if confirmed then
    { s with
      movies := s.movies.filter (fun m => !(m.id == id)),
      activeChallengeId :=
        if s.activeChallengeId == some id then none else s.activeChallengeId }
  else s

/-- `startChallenge` (part_000 lines 344-353): candidates are the unwatched
movies; if none exist an error toast is shown and nothing changes (`false`
flag); otherwise `candidates[Math.floor(Math.random()*len)]` becomes the
active challenge. The random draw is modelled by an arbitrary `r : Nat`
reduced modulo the pool size. -/
def startChallenge (r : Nat) (s : AppState) : AppState × Bool :=
  let candidates := s.movies.filter (fun m => !m.isWatched)
  if h : candidates.length = 0 then (s, false)
  else
    (({ s with
        activeChallengeId :=
          some (candidates.get ⟨r % candidates.length,
            Nat.mod_lt r (Nat.pos_of_ne_zero h)⟩).id }), true)

/-- The per-entry update `handleRateMovie` maps over `movies`: the entry with
the rated id becomes watched with the given rating, review and watch time;
every other entry is returned unchanged. -/
def rateUpdate (now : Int) (id : String) (rating : Int) (review : String)
    (m : Movie) : Movie :=
  if m.id == id then
    { m with isWatched := true, rating := some rating,
             userReview := some review, watchedAt := some now }
  else m

/-- `handleRateMovie` (part_000 lines 275-314): when the rated id is the
active challenge target, a new `ChallengeRecord` snapshotting the found
movie is prepended to the history and the active challenge is cleared;
in every case the movie with that id is marked watched with the given
rating and review. `now` models `Date.now()`, `freshId` the
`crypto.randomUUID()` for the new record. -/
def handleRateMovie (now : Int) (freshId : String) (id : String)
    (rating : Int) (review : String) (s : AppState) : AppState :=
  let challengeWon := s.activeChallengeId == some id
  let challengeHistory :=
    if challengeWon then
      match s.movies.find? (fun m => m.id == id) with
      | some movie =>
          { id := freshId, movieId := movie.id, movieTitle := movie.title,
            posterPath := movie.imageUrl, completedAt := now,
            ratingGiven := rating } :: s.challengeHistory
      | none => s.challengeHistory
    else s.challengeHistory
  let activeChallengeId := if challengeWon then none else s.activeChallengeId
  let movies := s.movies.map (rateUpdate now id rating review)
  { movies := movies, activeChallengeId := activeChallengeId,
    challengeHistory := challengeHistory }

/-! ## C1: remove deletes the entry and keeps the active challenge live -/

/-- C1: once confirmed, `removeMovie id` deletes every entry with that id
(a subsequent `find` query returns nothing); if the id was the active
challenge target the active challenge becomes absent, and for any other
target it is unchanged; consequently, if the active challenge referenced a
live entry before the removal, it still does afterwards. -/
theorem removeMovie_query_and_challenge (id : String) (s : AppState) :
    ((removeMovie true id s).movies.find? (fun m => m.id == id) = none) ∧
    (s.activeChallengeId = some id →
      (removeMovie true id s).activeChallengeId = none) ∧
    (∀ c, s.activeChallengeId = some c → c ≠ id →
      (removeMovie true id s).activeChallengeId = some c) ∧
    ((∀ c, s.activeChallengeId = some c → ∃ m ∈ s.movies, m.id = c) →
      ∀ c, (removeMovie true id s).activeChallengeId = some c →
        ∃ m ∈ (removeMovie true id s).movies, m.id = c) := by
  refine ⟨?_, ?_, ?_, ?_⟩
  · rw [List.find?_eq_none]
    intro m hm
    simp only [removeMovie, if_true] at hm
    rw [List.mem_filter] at hm
    simpa using hm.2
  · intro h
    simp [removeMovie, h]
  · intro c hc hne
    have : (s.activeChallengeId == some id) = false := by
      simp [hc]
      exact fun h => absurd h hne
    simp [removeMovie, this, hc]
    exact hne
  · intro hlive c hc
    by_cases hca : s.activeChallengeId = some id
    · have : (removeMovie true id s).activeChallengeId = none := by
        simp [removeMovie, hca]
      simp [this] at hc
    · have hrm : (removeMovie true id s).activeChallengeId = s.activeChallengeId := by
        have : (s.activeChallengeId == some id) = false := by
          simpa using hca
        simp [removeMovie, this]
      rw [hrm] at hc
      obtain ⟨m, hm, hmid⟩ := hlive c hc
      refine ⟨m, ?_, hmid⟩
      have hcid : c ≠ id := by
        intro h
        exact hca (h ▸ hc)
      simp [removeMovie, List.mem_filter, hm]
      rw [hmid]
      exact hcid

/-- Witness for C1 at a concrete state. -/
theorem removeMovie_query_and_challenge_instance :
    let mA : Movie :=
      { id := "a", tmdbId := none, title := "A", year := "2001", genre := [],
        description := "", imageUrl := "", isWatched := false, rating := none,
        userReview := none, addedAt := 1, watchedAt := none, platform := none,
        pickedBy := none, tags := [] }
    let s : AppState :=
      { movies := [mA], activeChallengeId := some "a", challengeHistory := [] }
    (removeMovie true "a" s).movies.find? (fun m => m.id == "a") = none ∧
      (removeMovie true "a" s).activeChallengeId = none := by
  intro mA s
  exact ⟨(removeMovie_query_and_challenge "a" s).1,
    (removeMovie_query_and_challenge "a" s).2.1 rfl⟩

/-! ## C6: startChallenge draws from the not-watched pool or fails cleanly -/

/-- C6: when at least one not-watched entry exists, `startChallenge` sets the
active challenge to the id of an entry drawn from exactly the not-watched
pool (never a watched entry) and changes nothing else; when the pool is
empty it reports failure and leaves the whole state unchanged. -/
theorem startChallenge_spec (r : Nat) (s : AppState) :
    (s.movies.filter (fun m => !m.isWatched) = [] →
      startChallenge r s = (s, false)) ∧
    (s.movies.filter (fun m => !m.isWatched) ≠ [] →
      ∃ m, m ∈ s.movies ∧ m.isWatched = false ∧
        startChallenge r s =
          ({ s with activeChallengeId := some m.id }, true)) := by
  constructor
  · intro h
    simp [startChallenge, h]
  · intro h
    have hlen : (s.movies.filter (fun m => !m.isWatched)).length ≠ 0 := by
      simpa [List.length_eq_zero] using h
    refine ⟨(s.movies.filter (fun m => !m.isWatched)).get
      ⟨r % (s.movies.filter (fun m => !m.isWatched)).length,
        Nat.mod_lt r (Nat.pos_of_ne_zero hlen)⟩, ?_, ?_, ?_⟩
    · have := List.get_mem (s.movies.filter (fun m => !m.isWatched))
        (r % (s.movies.filter (fun m => !m.isWatched)).length)
        (Nat.mod_lt r (Nat.pos_of_ne_zero hlen))
      exact (List.mem_filter.mp this).1
    · have := List.get_mem (s.movies.filter (fun m => !m.isWatched))
        (r % (s.movies.filter (fun m => !m.isWatched)).length)
        (Nat.mod_lt r (Nat.pos_of_ne_zero hlen))
      simpa using (List.mem_filter.mp this).2
    · simp [startChallenge, hlen]

/-- Witness for C6: a one-unwatched-movie state succeeds, and an
all-watched state fails with the state unchanged. -/
theorem startChallenge_spec_instance :
    let mA : Movie :=
      { id := "a", tmdbId := none, title := "A", year := "2001", genre := [],
        description := "", imageUrl := "", isWatched := false, rating := none,
        userReview := none, addedAt := 1, watchedAt := none, platform := none,
        pickedBy := none, tags := [] }
    let mB : Movie :=
      { id := "b", tmdbId := none, title := "B", year := "2002", genre := [],
        description := "", imageUrl := "", isWatched := true, rating := some 4,
        userReview := some "", addedAt := 2, watchedAt := some 3,
        platform := none, pickedBy := none, tags := [] }
    let s1 : AppState :=
      { movies := [mA], activeChallengeId := none, challengeHistory := [] }
    let s2 : AppState :=
      { movies := [mB], activeChallengeId := none, challengeHistory := [] }
    (∃ m, m ∈ s1.movies ∧ m.isWatched = false ∧
        startChallenge 0 s1 =
          ({ s1 with activeChallengeId := some m.id }, true)) ∧
      startChallenge 0 s2 = (s2, false) := by
  intro mA mB s1 s2
  exact ⟨(startChallenge_spec 0 s1).2 (by decide),
    (startChallenge_spec 0 s2).1 (by decide)⟩

/-! ## C2: completing the active challenge -/

/-- C2: when the active challenge targets id `id` and an entry with that id
exists, `handleRateMovie id rating review` prepends exactly one new
challenge record whose `ratingGiven` is the supplied rating and whose
`movieId` is the entry's id, marks the entry watched with the supplied
rating and review, clears the active challenge, and leaves every other
history record and every other entry unchanged. -/
theorem handleRateMovie_completes_challenge
    (now : Int) (freshId : String) (id : String) (rating : Int)
    (review : String) (s : AppState) (mv : Movie)
    (hactive : s.activeChallengeId = some id)
    (hfind : s.movies.find? (fun m => m.id == id) = some mv) :
    (∃ rec, (handleRateMovie now freshId id rating review s).challengeHistory =
        rec :: s.challengeHistory ∧
      rec.ratingGiven = rating ∧ rec.movieId = mv.id ∧
      rec.movieTitle = mv.title ∧ rec.posterPath = mv.imageUrl) ∧
    (handleRateMovie now freshId id rating review s).activeChallengeId = none ∧
    (∃ m ∈ (handleRateMovie now freshId id rating review s).movies,
      m.id = mv.id ∧ m.isWatched = true ∧
      m.rating = some rating ∧ m.userReview = some review) ∧
    (∀ m ∈ s.movies, m.id ≠ id →
      m ∈ (handleRateMovie now freshId id rating review s).movies) := by
  have hmvid : (mv.id == id) = true := by
    simpa using List.find?_some hfind
  have hmvmem : mv ∈ s.movies := List.mem_of_find?_eq_some hfind
  refine ⟨?_, ?_, ?_, ?_⟩
  · refine ⟨{ id := freshId, movieId := mv.id, movieTitle := mv.title,
              posterPath := mv.imageUrl, completedAt := now,
              ratingGiven := rating },
      ?_, rfl, rfl, rfl, rfl⟩
    simp [handleRateMovie, hactive, hfind]
  · simp [handleRateMovie, hactive]
  · refine ⟨{ mv with isWatched := true, rating := some rating,
                      userReview := some review,
                      watchedAt := some now }, ?_, ?_⟩
    · have hmem := List.mem_map_of_mem (rateUpdate now id rating review) hmvmem
      rw [show rateUpdate now id rating review mv =
          { mv with isWatched := true, rating := some rating,
                    userReview := some review, watchedAt := some now } from
        by simp [rateUpdate, hmvid]] at hmem
      exact hmem
    · exact ⟨rfl, rfl, rfl, rfl⟩
  · intro m hm hmne
    have hmem := List.mem_map_of_mem (rateUpdate now id rating review) hm
    rw [show rateUpdate now id rating review m = m from
      by simp [rateUpdate, hmne]] at hmem
    exact hmem

/-- Witness for C2 at a concrete state with an active challenge. -/
theorem handleRateMovie_completes_challenge_instance :
    let mA : Movie :=
      { id := "a", tmdbId := none, title := "A", year := "2001", genre := [],
        description := "", imageUrl := "pA", isWatched := false,
        rating := none, userReview := none, addedAt := 1, watchedAt := none,
        platform := none, pickedBy := none, tags := [] }
    let s : AppState :=
      { movies := [mA], activeChallengeId := some "a", challengeHistory := [] }
    (∃ rec, (handleRateMovie 9 "r1" "a" 4 "good" s).challengeHistory =
        rec :: s.challengeHistory ∧
      rec.ratingGiven = 4 ∧ rec.movieId = mA.id ∧
      rec.movieTitle = mA.title ∧ rec.posterPath = mA.imageUrl) ∧
    (handleRateMovie 9 "r1" "a" 4 "good" s).activeChallengeId = none ∧
    (∃ m ∈ (handleRateMovie 9 "r1" "a" 4 "good" s).movies,
      m.id = mA.id ∧ m.isWatched = true ∧
      m.rating = some 4 ∧ m.userReview = some "good") := by
  intro mA s
  have h := handleRateMovie_completes_challenge 9 "r1" "a" 4 "good" s mA
    rfl (by decide)
  exact ⟨h.1, h.2.1, h.2.2.1⟩

/-! ## Import / export (part_000 lines 361-393) -/

/-- The parsed JSON document handed to `importData`. The source checks
`json.movies || Array.isArray(json)`: an object whose `movies` field is an
array (JS arrays, empty ones included, are truthy), or a bare array, is
accepted; anything else raises the format error. `object none cs` models an
object whose `movies` field is absent (or not an array-like truthy value). -/
inductive ImportPayload where
  | object (movies : Option (List Movie)) (challenges : Option (List ChallengeRecord))
  | array (movies : List Movie)
  | invalid
deriving DecidableEq, Repr

/-- `importData`: on an accepted payload, `setMovies(json.movies || json)`
replaces the entry list and `if (json.challenges) setChallengeHistory(...)`
replaces the history only when a `challenges` field is present; otherwise
the catch branch shows an error toast and no state changes. The `Bool`
result is `true` on success. -/
def importData (p : ImportPayload) (s : AppState) : AppState × Bool :=
  match p with
  | .object (some ms) cs =>
      ({ s with movies := ms, challengeHistory := cs.getD s.challengeHistory },
        true)
  | .object none _ => (s, false)
  | .array ms => ({ s with movies := ms }, true)
  | .invalid => (s, false)

/-- `exportData`: serializes `{ movies, challenges: challengeHistory }`.
The JSON stringify/parse round trip is modelled as the identity on the
structured document. -/
def exportData (s : AppState) : ImportPayload :=
  .object (some s.movies) (some s.challengeHistory)

/-! ## C4: importing a bare array -/

/-- C4 counterexample: importing a bare array into a state whose challenge
history is non-empty leaves that history intact, so the resulting state does
not have an empty challenge-record history as the claim states. -/
theorem importData_bare_array_counterexample :
    let mA : Movie :=
      { id := "a", tmdbId := none, title := "A", year := "2001", genre := [],
        description := "", imageUrl := "", isWatched := false, rating := none,
        userReview := none, addedAt := 1, watchedAt := none, platform := none,
        pickedBy := none, tags := [] }
    let rec0 : ChallengeRecord :=
      { id := "r0", movieId := "z", movieTitle := "Z", posterPath := "",
        completedAt := 5, ratingGiven := 3 }
    let s : AppState :=
      { movies := [], activeChallengeId := none, challengeHistory := [rec0] }
    (importData (.array [mA]) s).1.movies = [mA] ∧
      (importData (.array [mA]) s).1.challengeHistory = [rec0] ∧
      (importData (.array [mA]) s).1.challengeHistory ≠ [] := by
  exact ⟨rfl, rfl, by decide⟩

/-- C4 amended: importing a bare JSON array of entries replaces the entry
list with exactly that array, succeeds, and leaves the challenge-record
history (and the active challenge) unchanged — the `challenges` branch is
never taken for a bare array, so the prior history is kept, not emptied. -/
theorem importData_bare_array_spec (ms : List Movie) (s : AppState) :
    importData (.array ms) s =
      ({ movies := ms, activeChallengeId := s.activeChallengeId,
         challengeHistory := s.challengeHistory }, true) :=
  rfl

/-! ## C5: export/import round trip -/

/-- C5: importing the document produced by `exportData s` into any state
restores exactly `s`'s entry list and challenge history (and succeeds):
the exported object always carries `movies` and `challenges` fields, both
of which are truthy JS arrays, so both are restored. -/
theorem export_import_roundTrip (s t : AppState) :
    (importData (exportData s) t).1.movies = s.movies ∧
    (importData (exportData s) t).1.challengeHistory = s.challengeHistory ∧
    (importData (exportData s) t).2 = true :=
  ⟨rfl, rfl, rfl⟩

/-! ## Battle mode (part_000 lines 316-342) -/

/-- `startBattle`: the contenders are the unwatched movies; with fewer than
two of them an error toast is shown and no battle starts. Two random
indices are drawn, the second rejection-sampled until distinct from the
first; the two supplied indices model the draws (reduced modulo the pool
size) and must land on distinct positions, distinctness being what the
`while` loop guarantees. -/
def startBattle (i j : Nat) (movies : List Movie) : Option (Movie × Movie) :=
  let contenders := movies.filter (fun m => !m.isWatched)
  if h2 : contenders.length < 2 then none
  else if hij : i % contenders.length = j % contenders.length then none
  else
    some (contenders.get ⟨i % contenders.length,
            Nat.mod_lt i (by omega)⟩,
          contenders.get ⟨j % contenders.length,
            Nat.mod_lt j (by omega)⟩)

/-- The candidate pool `handleBattlePick` computes: unwatched movies whose id
differs from the winner's id and from both current combatants' ids. -/
def battleContenders (winner : Movie) (pair : Movie × Movie)
    (movies : List Movie) : List Movie :=
  movies.filter (fun m => !m.isWatched && m.id != winner.id
    && m.id != pair.1.id && m.id != pair.2.id)

/-- `handleBattlePick`: with an empty candidate pool the battle ends and the
winner becomes the final selection (`Sum.inl`); otherwise a random next
challenger is drawn from the pool and paired with the winner (`Sum.inr`). -/
def handleBattlePick (r : Nat) (winner : Movie) (movies : List Movie)
    (pair : Movie × Movie) : Sum Movie (Movie × Movie) :=
  let contenders := battleContenders winner pair movies
  if h : contenders.length = 0 then Sum.inl winner
  else Sum.inr (winner, contenders.get ⟨r % contenders.length,
    Nat.mod_lt r (Nat.pos_of_ne_zero h)⟩)

/-- Runs battle rounds: each round the caller picks the winner (`true` = the
pair's first member) and supplies the random draw for the next challenger;
returns the final selection if the empty-pool branch is reached within the
supplied rounds, `none` if the battle is still ongoing when they run out. -/
def runBattle (choices : List (Bool × Nat)) (movies : List Movie)
    (pair : Movie × Movie) : Option Movie :=
  match choices with
  | [] => none
  | (w, r) :: rest =>
    match handleBattlePick r (if w then pair.1 else pair.2) movies pair with
    | Sum.inl final => some final
    | Sum.inr next => runBattle rest movies next

/-- In a list of movies with pairwise-distinct ids, at most one element
carries any given id. -/
theorem countP_id_le_one (l : List Movie) (hnd : (l.map Movie.id).Nodup)
    (b : String) : l.countP (fun m => m.id == b) ≤ 1 := by
  induction l with
  | nil => simp
  | cons a t ih =>
    rw [List.map_cons, List.nodup_cons] at hnd
    rw [List.countP_cons]
    by_cases hab : a.id = b
    · have h0 : t.countP (fun m => m.id == b) = 0 := by
        rw [List.countP_eq_zero]
        intro x hx hxb
        exact hnd.1 (by
          rw [hab, ← show x.id = b by simpa using hxb]
          exact List.mem_map_of_mem Movie.id hx)
      simp [h0, hab]
    · simpa [hab] using ih hnd.2

/-- Counting a disjunction is at most the sum of the two counts. -/
theorem countP_or_le {α : Type} (p q : α → Bool) (l : List α) :
    l.countP (fun a => p a || q a) ≤ l.countP p + l.countP q := by
  induction l with
  | nil => simp
  | cons a t ih =>
    rw [List.countP_cons, List.countP_cons, List.countP_cons]
    cases hp : p a <;> cases hq : q a <;> simp [hp, hq] <;> omega

/-- With at least three distinct-id unwatched movies, the candidate pool
after any round is non-empty: the filter only excludes the two ids of the
current pair (the winner being one of them). -/
theorem battleContenders_ne_nil (movies : List Movie) (pair : Movie × Movie)
    (winner : Movie) (hw : winner = pair.1 ∨ winner = pair.2)
    (hn : 3 ≤ (movies.filter (fun m => !m.isWatched)).length)
    (hnd : ((movies.filter (fun m => !m.isWatched)).map Movie.id).Nodup) :
    battleContenders winner pair movies ≠ [] := by
  have hsplit : battleContenders winner pair movies =
      (movies.filter (fun m => !m.isWatched)).filter
        (fun m => m.id != winner.id && m.id != pair.1.id
          && m.id != pair.2.id) := by
    rw [List.filter_filter]
    apply List.filter_congr
    intro m _
    cases m.isWatched <;> cases hb1 : m.id == winner.id <;>
      cases hb2 : m.id == pair.1.id <;> cases hb3 : m.id == pair.2.id <;>
      simp [hb1, hb2, hb3]
  set U := movies.filter (fun m => !m.isWatched) with hU
  have hdrop : U.countP (fun m =>
      !(m.id != winner.id && m.id != pair.1.id && m.id != pair.2.id)) ≤ 2 := by
    have heq : U.countP (fun m =>
        !(m.id != winner.id && m.id != pair.1.id && m.id != pair.2.id)) =
        U.countP (fun m => (m.id == pair.1.id) || (m.id == pair.2.id)) := by
      apply List.countP_congr
      intro m _
      rcases hw with hw | hw <;> rw [hw] <;>
        cases hb2 : m.id == pair.1.id <;> cases hb3 : m.id == pair.2.id <;>
        simp only [bne, hb2, hb3] <;> rfl
    rw [heq]
    calc U.countP (fun m => (m.id == pair.1.id) || (m.id == pair.2.id)) ≤
        U.countP (fun m => m.id == pair.1.id) +
          U.countP (fun m => m.id == pair.2.id) :=
          countP_or_le _ _ U
      _ ≤ 2 := by
          have h1 := countP_id_le_one U hnd pair.1.id
          have h2 := countP_id_le_one U hnd pair.2.id
          omega
  have hlen := List.length_eq_countP_add_countP
    (p := fun m => m.id != winner.id && m.id != pair.1.id
      && m.id != pair.2.id) (l := U)
  have hkeep : 1 ≤ U.countP (fun m => m.id != winner.id
      && m.id != pair.1.id && m.id != pair.2.id) := by
    have hnot : U.countP (fun m => ¬(m.id != winner.id && m.id != pair.1.id
        && m.id != pair.2.id : Bool)) = U.countP (fun m =>
        !(m.id != winner.id && m.id != pair.1.id && m.id != pair.2.id)) := by
      apply List.countP_congr
      intro m _
      cases hb : (m.id != winner.id && m.id != pair.1.id
        && m.id != pair.2.id) <;> simp [hb]
    omega
  intro hnil
  rw [hsplit] at hnil
  have : U.countP (fun m => m.id != winner.id && m.id != pair.1.id
      && m.id != pair.2.id) = 0 := by
    rw [List.countP_eq_length_filter, hnil]
    rfl
  omega

/-- Every member of the battle candidate pool is an unwatched member of the
movie list. -/
theorem battleContenders_subset_unwatched (winner : Movie)
    (pair : Movie × Movie) (movies : List Movie) :
    ∀ x ∈ battleContenders winner pair movies,
      x ∈ movies.filter (fun m => !m.isWatched) := by
  intro x hx
  unfold battleContenders at hx
  rw [List.mem_filter] at hx
  rw [List.mem_filter]
  refine ⟨hx.1, ?_⟩
  have h2 := hx.2
  simp only [Bool.and_eq_true] at h2
  exact h2.1.1.1

/-! ## C3: battle termination -/

/-- C3 amended: with three or more distinct-id unwatched candidates, the
candidate pool computed by `handleBattlePick` excludes only the two ids of
the current pair, so it is never empty: no sequence of winner choices and
random draws ever reaches the terminating branch — the tournament does not
terminate at all, let alone within N-1 rounds. (With exactly two
candidates the very first pick does terminate the battle.) -/
theorem runBattle_never_terminates (movies : List Movie)
    (hn : 3 ≤ (movies.filter (fun m => !m.isWatched)).length)
    (hnd : ((movies.filter (fun m => !m.isWatched)).map Movie.id).Nodup)
    (choices : List (Bool × Nat)) (pair : Movie × Movie)
    (h1 : pair.1 ∈ movies.filter (fun m => !m.isWatched))
    (h2 : pair.2 ∈ movies.filter (fun m => !m.isWatched)) :
    runBattle choices movies pair = none := by
  induction choices generalizing pair with
  | nil => rfl
  | cons c rest ih =>
    obtain ⟨w, r⟩ := c
    have hw : (if w then pair.1 else pair.2) = pair.1 ∨
        (if w then pair.1 else pair.2) = pair.2 := by
      cases w <;> simp
    have hne := battleContenders_ne_nil movies pair
      (if w then pair.1 else pair.2) hw hn hnd
    have hlen : (battleContenders (if w then pair.1 else pair.2) pair
        movies).length ≠ 0 := by
      simpa [List.length_eq_zero] using hne
    have hpick : handleBattlePick r (if w then pair.1 else pair.2) movies pair
        = Sum.inr ((if w then pair.1 else pair.2),
          (battleContenders (if w then pair.1 else pair.2) pair movies).get
            ⟨r % (battleContenders (if w then pair.1 else pair.2) pair
                movies).length,
              Nat.mod_lt r (Nat.pos_of_ne_zero hlen)⟩) := by
      simp [handleBattlePick, hlen]
    show runBattle ((w, r) :: rest) movies pair = none
    rw [runBattle, hpick]
    apply ih
    · cases w
      · exact h2
      · exact h1
    · exact battleContenders_subset_unwatched _ _ _ _
        (List.get_mem
          (battleContenders (if w then pair.1 else pair.2) pair movies)
          (r % (battleContenders (if w then pair.1 else pair.2) pair
            movies).length)
          (Nat.mod_lt r (Nat.pos_of_ne_zero hlen)))

/-- C3 counterexample: with N = 3 unwatched candidates A, B, C,
`startBattle` opens with the pair (A, B); letting the first combatant win
every round, after N-1 = 2 rounds the battle has not terminated (round 1
pairs A with C, round 2 re-draws B — the loser of round 1 — so the pool is
never empty), refuting termination within N-1 rounds. -/
theorem battle_termination_counterexample :
    let mA : Movie :=
      { id := "a", tmdbId := none, title := "A", year := "2001", genre := [],
        description := "", imageUrl := "", isWatched := false, rating := none,
        userReview := none, addedAt := 1, watchedAt := none, platform := none,
        pickedBy := none, tags := [] }
    let mB : Movie :=
      { id := "b", tmdbId := none, title := "B", year := "2002", genre := [],
        description := "", imageUrl := "", isWatched := false, rating := none,
        userReview := none, addedAt := 2, watchedAt := none, platform := none,
        pickedBy := none, tags := [] }
    let mC : Movie :=
      { id := "c", tmdbId := none, title := "C", year := "2003", genre := [],
        description := "", imageUrl := "", isWatched := false, rating := none,
        userReview := none, addedAt := 3, watchedAt := none, platform := none,
        pickedBy := none, tags := [] }
    startBattle 0 1 [mA, mB, mC] = some (mA, mB) ∧
      runBattle [(true, 0), (true, 0)] [mA, mB, mC] (mA, mB) = none := by
  intro mA mB mC
  exact ⟨by decide, by decide⟩

/-- Witness for C3's amended theorem at a concrete three-movie pool. -/
theorem runBattle_never_terminates_instance :
    let mA : Movie :=
      { id := "a", tmdbId := none, title := "A", year := "2001", genre := [],
        description := "", imageUrl := "", isWatched := false, rating := none,
        userReview := none, addedAt := 1, watchedAt := none, platform := none,
        pickedBy := none, tags := [] }
    let mB : Movie :=
      { id := "b", tmdbId := none, title := "B", year := "2002", genre := [],
        description := "", imageUrl := "", isWatched := false, rating := none,
        userReview := none, addedAt := 2, watchedAt := none, platform := none,
        pickedBy := none, tags := [] }
    let mC : Movie :=
      { id := "c", tmdbId := none, title := "C", year := "2003", genre := [],
        description := "", imageUrl := "", isWatched := false, rating := none,
        userReview := none, addedAt := 3, watchedAt := none, platform := none,
        pickedBy := none, tags := [] }
    runBattle [(false, 1), (true, 0), (false, 2)] [mA, mB, mC] (mA, mB)
      = none := by
  intro mA mB mC
  exact runBattle_never_terminates [mA, mB, mC] (by decide) (by decide)
    [(false, 1), (true, 0), (false, 2)] (mA, mB) (by decide) (by decide)

/-! ## JS parseInt and the watchlist sort/filter pipeline
(part_000 lines 447-464) -/

/-- Hexadecimal digit value, as accepted by JS `parseInt` after `0x`. -/
def hexDigit? (c : Char) : Option Nat :=
  if '0' ≤ c ∧ c ≤ '9' then some (c.toNat - '0'.toNat)
  else if 'a' ≤ c ∧ c ≤ 'f' then some (c.toNat - 'a'.toNat + 10)
  else if 'A' ≤ c ∧ c ≤ 'F' then some (c.toNat - 'A'.toNat + 10)
  else none

/-- Decimal digit value. -/
def decDigit? (c : Char) : Option Nat :=
  if '0' ≤ c ∧ c ≤ '9' then some (c.toNat - '0'.toNat) else none

/-- Accumulates the leading run of digits; `none` when there is none
(JS `parseInt` then returns NaN). -/
def parseDigits (base : Nat) (digit? : Char → Option Nat)
    (cs : List Char) : Option Nat :=
  let ds := (cs.takeWhile (fun c => (digit? c).isSome)).filterMap digit?
  if ds.isEmpty then none else some (ds.foldl (fun acc d => acc * base + d) 0)

/-- The digit part of JS `parseInt` with unspecified radix: a `0x`/`0X`
prefix selects hexadecimal, otherwise decimal. -/
def parseIntBody (cs : List Char) : Option Nat :=
  match cs with
  | '0' :: 'x' :: rest => parseDigits 16 hexDigit? rest
  | '0' :: 'X' :: rest => parseDigits 16 hexDigit? rest
  | _ => parseDigits 10 decDigit? cs

/-- JS `parseInt(s)`: skip leading whitespace, optional sign, then the
longest digit prefix; `none` models NaN. -/
def parseIntJs (s : String) : Option Int :=
  let cs := s.data.dropWhile (fun c => c.isWhitespace)
  match cs with
  | '-' :: rest => (parseIntBody rest).map (fun n => -(n : Int))
  | '+' :: rest => (parseIntBody rest).map (fun n => (n : Int))
  | _ => (parseIntBody cs).map (fun n => (n : Int))

/-- `SortOption` from types.ts. -/
inductive SortOption where
  | DATE_DESC
  | DATE_ASC
  | YEAR_DESC
  | YEAR_ASC
  | TITLE_ASC
  | RATING_DESC
deriving DecidableEq, Repr

/-- `localeCompare` is modelled as code-point string comparison; no verified
claim depends on the specifics of the locale order. -/
def strCmpInt (a b : String) : Int :=
  match compare a b with
  | Ordering.lt => -1
  | Ordering.eq => 0
  | Ordering.gt => 1

/-- JS subtraction where `none` models NaN: any NaN operand gives NaN. -/
def subNaN (x y : Option Int) : Option Int :=
  match x, y with
  | some a, some b => some (a - b)
  | _, _ => none

/-- The `sortedWatchlist` comparator as the raw JS number it returns;
`none` models NaN, which arises exactly when a year sort meets a year
string `parseInt` cannot parse. -/
def watchCmpRaw (so : SortOption) (a b : Movie) : Option Int :=
  match so with
  | SortOption.TITLE_ASC => some (strCmpInt a.title b.title)
  | SortOption.YEAR_DESC => subNaN (parseIntJs b.year) (parseIntJs a.year)
  | SortOption.YEAR_ASC => subNaN (parseIntJs a.year) (parseIntJs b.year)
  | SortOption.DATE_ASC => some (a.addedAt - b.addedAt)
  | _ => some (b.addedAt - a.addedAt)

/-- ECMAScript SortCompare: a comparator result that is NaN is treated
as +0. -/
def sortCompare (so : SortOption) (a b : Movie) : Int :=
  (watchCmpRaw so a b).getD 0

/-- Inserts `a` after every element `b` with `le b a`, so later-processed
elements land after equal earlier ones. -/
def insertAfterEq {α : Type} (le : α → α → Bool) (a : α) :
    List α → List α
  | [] => [a]
  | b :: bs => if le b a then b :: insertAfterEq le a bs else a :: b :: bs

/-- Stable insertion sort, modelling the stability `Array.prototype.sort`
guarantees (ES2019+): elements are processed left to right, each inserted
after the existing elements it does not strictly precede. -/
def stableSort {α : Type} (le : α → α → Bool) (l : List α) : List α :=
  l.foldl (fun acc a => insertAfterEq le a acc) []

/-- `sortedWatchlist` (part_000 lines 447-464): from the unwatched movies,
apply the platform filter (exact equality) unless it is the ALL sentinel
(`none`), then the genre filter (genre-list membership) unless ALL, then
sort by the selected comparator (spread-copy plus `.sort`). -/
def sortedWatchlist (so : SortOption) (streamingFilter : Option String)
    (genreFilter : Option String) (movies : List Movie) : List Movie :=
  let rawWatchList := movies.filter (fun m => !m.isWatched)
  let f1 := match streamingFilter with
    | none => rawWatchList
    | some p => rawWatchList.filter (fun m => m.platform == some p)
  let f2 := match genreFilter with
    | none => f1
    | some g => f1.filter (fun m => m.genre.contains g)
  stableSort (fun a b => decide (sortCompare so a b ≤ 0)) f2

/-- Inserting permutes: the result holds the new element and the old ones. -/
theorem insertAfterEq_perm {α : Type} (le : α → α → Bool) (a : α)
    (l : List α) : (insertAfterEq le a l).Perm (a :: l) := by
  induction l with
  | nil => exact List.Perm.refl _
  | cons b bs ih =>
    unfold insertAfterEq
    by_cases h : le b a = true
    · rw [if_pos h]
      exact (ih.cons b).trans (List.Perm.swap a b bs)
    · rw [if_neg h]

/-- The stable sort permutes its input. -/
theorem stableSort_perm {α : Type} (le : α → α → Bool) (l : List α) :
    (stableSort le l).Perm l := by
  have key : ∀ (t acc : List α),
      (t.foldl (fun acc a => insertAfterEq le a acc) acc).Perm (acc ++ t) := by
    intro t
    induction t with
    | nil => intro acc; simp
    | cons a t ih =>
      intro acc
      rw [List.foldl_cons]
      refine (ih (insertAfterEq le a acc)).trans ?_
      refine ((insertAfterEq_perm le a acc).append_right t).trans ?_
      exact List.perm_middle.symm
  simpa [stableSort] using key l []

/-! ## C8: platform and genre filters compose by AND -/

/-- C8: the displayed watchlist is, up to the chosen sort order, exactly the
not-watched entries passing both active filters: with a platform `P` and a
genre `G` selected, those whose platform equals `P` and whose genre list
contains `G`; choosing ALL (`none`) for either filter drops only that
conjunct while the other still applies. -/
theorem sortedWatchlist_filters (so : SortOption) (P G : String)
    (movies : List Movie) :
    (sortedWatchlist so (some P) (some G) movies).Perm
      (movies.filter (fun m =>
        !m.isWatched && m.platform == some P && m.genre.contains G)) ∧
    (sortedWatchlist so none (some G) movies).Perm
      (movies.filter (fun m => !m.isWatched && m.genre.contains G)) ∧
    (sortedWatchlist so (some P) none movies).Perm
      (movies.filter (fun m => !m.isWatched && m.platform == some P)) := by
  refine ⟨?_, ?_, ?_⟩
  · show (stableSort (fun a b => decide (sortCompare so a b ≤ 0))
      (((movies.filter (fun m => !m.isWatched)).filter
          (fun m => m.platform == some P)).filter
        (fun m => m.genre.contains G))).Perm _
    refine (stableSort_perm _ _).trans ?_
    have heq : ((movies.filter (fun m => !m.isWatched)).filter
          (fun m => m.platform == some P)).filter
          (fun m => m.genre.contains G) =
        movies.filter (fun m =>
          !m.isWatched && m.platform == some P && m.genre.contains G) := by
      simp only [List.filter_filter]
      apply List.filter_congr
      intro m _
      cases hw : m.isWatched <;> cases hp : m.platform == some P <;>
        cases hg : m.genre.contains G <;> rfl
    rw [heq]
  · show (stableSort (fun a b => decide (sortCompare so a b ≤ 0))
      ((movies.filter (fun m => !m.isWatched)).filter
        (fun m => m.genre.contains G))).Perm _
    refine (stableSort_perm _ _).trans ?_
    have heq : (movies.filter (fun m => !m.isWatched)).filter
          (fun m => m.genre.contains G) =
        movies.filter (fun m => !m.isWatched && m.genre.contains G) := by
      simp only [List.filter_filter]
      apply List.filter_congr
      intro m _
      cases hw : m.isWatched <;> cases hg : m.genre.contains G <;> rfl
    rw [heq]
  · show (stableSort (fun a b => decide (sortCompare so a b ≤ 0))
      ((movies.filter (fun m => !m.isWatched)).filter
        (fun m => m.platform == some P))).Perm _
    refine (stableSort_perm _ _).trans ?_
    have heq : (movies.filter (fun m => !m.isWatched)).filter
          (fun m => m.platform == some P) =
        movies.filter (fun m => !m.isWatched && m.platform == some P) := by
      simp only [List.filter_filter]
      apply List.filter_congr
      intro m _
      cases hw : m.isWatched <;> cases hp : m.platform == some P <;> rfl
    rw [heq]

/-! ## C7: non-numeric years under the year sorts -/

/-- C7 counterexample: under the ascending year sort, the claim predicts the
non-numeric-year entry (smallest possible value) comes first, but the code's
comparator returns NaN — treated as 0 — so the stable sort leaves the
numeric-year entry first; moreover the comparator equates the non-numeric
entry with both of two entries it distinguishes, so it is not a consistent
total ordering. -/
theorem yearSort_nonNumeric_counterexample :
    let mNA : Movie :=
      { id := "n", tmdbId := none, title := "NA", year := "N/A", genre := [],
        description := "", imageUrl := "", isWatched := false, rating := none,
        userReview := none, addedAt := 1, watchedAt := none, platform := none,
        pickedBy := none, tags := [] }
    let m2000 : Movie :=
      { id := "x", tmdbId := none, title := "X", year := "2000", genre := [],
        description := "", imageUrl := "", isWatched := false, rating := none,
        userReview := none, addedAt := 2, watchedAt := none, platform := none,
        pickedBy := none, tags := [] }
    let m1999 : Movie :=
      { id := "y", tmdbId := none, title := "Y", year := "1999", genre := [],
        description := "", imageUrl := "", isWatched := false, rating := none,
        userReview := none, addedAt := 3, watchedAt := none, platform := none,
        pickedBy := none, tags := [] }
    sortedWatchlist SortOption.YEAR_ASC none none [m2000, mNA]
        = [m2000, mNA] ∧
      sortedWatchlist SortOption.YEAR_ASC none none [m2000, mNA]
        ≠ [mNA, m2000] ∧
      sortCompare SortOption.YEAR_ASC mNA m2000 = 0 ∧
      sortCompare SortOption.YEAR_ASC m2000 mNA = 0 ∧
      sortCompare SortOption.YEAR_ASC m2000 m1999 = 1 ∧
      sortCompare SortOption.YEAR_DESC mNA m2000 = 0 := by
  intro mNA m2000 m1999
  exact ⟨by decide, by decide, by decide, by decide, by decide, by decide⟩

/-- C7 amended: an entry whose year string `parseInt` cannot parse compares
as *equal* to every entry under both year sorts (the comparator evaluates to
NaN, which the sort treats as 0) — not as the smallest value — so such
entries keep their relative positions under the stable sort, and the
comparator is not a consistent total ordering. -/
theorem yearCompare_nonNumeric_eq (a b : Movie)
    (h : parseIntJs a.year = none) :
    sortCompare SortOption.YEAR_ASC a b = 0 ∧
    sortCompare SortOption.YEAR_DESC a b = 0 ∧
    sortCompare SortOption.YEAR_ASC b a = 0 ∧
    sortCompare SortOption.YEAR_DESC b a = 0 := by
  have h1 : ∀ y, (subNaN none y).getD 0 = 0 := by
    intro y
    cases y <;> rfl
  have h2 : ∀ x, (subNaN x none).getD 0 = 0 := by
    intro x
    cases x <;> rfl
  refine ⟨?_, ?_, ?_, ?_⟩
  · show (subNaN (parseIntJs a.year) (parseIntJs b.year)).getD 0 = 0
    rw [h]
    exact h1 _
  · show (subNaN (parseIntJs b.year) (parseIntJs a.year)).getD 0 = 0
    rw [h]
    exact h2 _
  · show (subNaN (parseIntJs b.year) (parseIntJs a.year)).getD 0 = 0
    rw [h]
    exact h2 _
  · show (subNaN (parseIntJs a.year) (parseIntJs b.year)).getD 0 = 0
    rw [h]
    exact h1 _

/-- Witness for C7's amended theorem at a concrete non-numeric year. -/
theorem yearCompare_nonNumeric_eq_instance :
    let mNA : Movie :=
      { id := "n", tmdbId := none, title := "NA", year := "N/A", genre := [],
        description := "", imageUrl := "", isWatched := false, rating := none,
        userReview := none, addedAt := 1, watchedAt := none, platform := none,
        pickedBy := none, tags := [] }
    let m2000 : Movie :=
      { id := "x", tmdbId := none, title := "X", year := "2000", genre := [],
        description := "", imageUrl := "", isWatched := false, rating := none,
        userReview := none, addedAt := 2, watchedAt := none, platform := none,
        pickedBy := none, tags := [] }
    sortCompare SortOption.YEAR_ASC mNA m2000 = 0 ∧
      sortCompare SortOption.YEAR_DESC mNA m2000 = 0 ∧
      sortCompare SortOption.YEAR_ASC m2000 mNA = 0 ∧
      sortCompare SortOption.YEAR_DESC m2000 mNA = 0 := by
  intro mNA m2000
  exact yearCompare_nonNumeric_eq mNA m2000 (by decide)

/-! ## TMDB service (part_001): recommendations mapping -/

/-- `SearchResult` from types.ts. -/
structure SearchResult where
  tmdbId : Int
  title : String
  year : String
  genre : List String
  description : String
  posterPath : Option String
deriving DecidableEq, Repr

/-- A raw TMDB API result item, with the fields the service reads. -/
structure TmdbItem where
  id : Int
  title : String
  releaseDate : Option String
  overview : Option String
  genreIds : List Nat
  posterPath : Option String
deriving DecidableEq, Repr

/-- JS truthiness of a possibly-absent string: `undefined`/`null` and the
empty string are falsy. -/
def jsTruthyStr : Option String → Bool
  | none => false
  | some s => !(s == "")

/-- The `GENRES` id-to-name table of the TMDB service. -/
def tmdbGenreName : Nat → Option String
  | 28 => some "Ação"
  | 12 => some "Aventura"
  | 16 => some "Animação"
  | 35 => some "Comédia"
  | 80 => some "Crime"
  | 99 => some "Documentário"
  | 18 => some "Drama"
  | 10751 => some "Família"
  | 14 => some "Fantasia"
  | 36 => some "História"
  | 27 => some "Terror"
  | 10402 => some "Música"
  | 9648 => some "Mistério"
  | 10749 => some "Romance"
  | 878 => some "Ficção"
  | 10770 => some "TV Movie"
  | 53 => some "Thriller"
  | 10752 => some "Guerra"
  | 37 => some "Faroeste"
  | _ => none

/-- `getGenreNames`: look every id up, drop the misses (`filter(Boolean)`;
no table entry is empty, so Boolean-filtering only drops `undefined`), keep
at most 3. -/
def getGenreNames (ids : List Nat) : List String :=
  (ids.filterMap tmdbGenreName).take 3

/-- `release_date ? release_date.split('-')[0] : 'N/A'`: the first
dash-separated field is the prefix up to the first dash. -/
def yearOf (releaseDate : Option String) : String :=
  match releaseDate with
  | some s =>
      if s == "" then "N/A"
      else String.mk (s.data.takeWhile (fun c => !(c == '-')))
  | none => "N/A"

/-- `item.overview || fallback`. -/
def overviewOr (fallback : String) (overview : Option String) : String :=
  match overview with
  | some s => if s == "" then fallback else s
  | none => fallback

/-- `mapResults` (part_001 lines 82-96): drops items whose TMDB id is
already present among the existing movies' `tmdbId`s (the `Set` of which
may hold `undefined`, never equal to a numeric id) or which lack a truthy
`poster_path`, keeps the first 6, and shapes them into `SearchResult`s.
`getRecommendations` returns exactly this mapping of the provider response
on each of its success paths. -/
def mapResults (results : List TmdbItem) (existingMovies : List Movie) :
    List SearchResult :=
  let existingIds := existingMovies.map (fun m => m.tmdbId)
  ((results.filter (fun item =>
      !(existingIds.contains (some item.id))
        && jsTruthyStr item.posterPath)).take 6).map
    (fun item =>
      { tmdbId := item.id, title := item.title,
        year := yearOf item.releaseDate,
        genre := getGenreNames item.genreIds,
        description := overviewOr "Sugestão baseada nos seus gostos."
          item.overview,
        posterPath := item.posterPath })

/-! ## C9: recommendation mapping -/

/-- C9: for every provider response and entry list, `mapResults` yields at
most 6 candidates, none sharing a `tmdbId` with any existing entry, and
every one carrying a (truthy) poster path. -/
theorem mapResults_spec (results : List TmdbItem)
    (existingMovies : List Movie) :
    (mapResults results existingMovies).length ≤ 6 ∧
    ∀ r ∈ mapResults results existingMovies,
      (∀ m ∈ existingMovies, m.tmdbId ≠ some r.tmdbId) ∧
      jsTruthyStr r.posterPath = true := by
  constructor
  · show (List.map _ (List.take 6 _)).length ≤ 6
    rw [List.length_map]
    exact List.length_take_le 6 _
  · intro r hr
    rw [show mapResults results existingMovies = List.map _ (List.take 6
      (results.filter (fun item =>
        !((existingMovies.map (fun m => m.tmdbId)).contains (some item.id))
          && jsTruthyStr item.posterPath))) from rfl] at hr
    rw [List.mem_map] at hr
    obtain ⟨item, hitem, hritem⟩ := hr
    have hfil : item ∈ results.filter (fun item =>
        !((existingMovies.map (fun m => m.tmdbId)).contains (some item.id))
          && jsTruthyStr item.posterPath) :=
      List.mem_of_mem_take hitem
    rw [List.mem_filter] at hfil
    have hp := hfil.2
    simp only [Bool.and_eq_true] at hp
    subst hritem
    constructor
    · intro m hm heq
      have hmem : some item.id ∈ existingMovies.map (fun m => m.tmdbId) := by
        rw [show some item.id = m.tmdbId from heq.symm]
        exact List.mem_map_of_mem _ hm
      have hc : (existingMovies.map (fun m => m.tmdbId)).contains
          (some item.id) = true := by
        simpa [List.contains] using hmem
      rw [hc] at hp
      simp at hp
    · exact hp.2

/-- Witness for C9 at a concrete provider response and entry list. -/
theorem mapResults_spec_instance :
    let it1 : TmdbItem :=
      { id := 7, title := "T", releaseDate := some "2011-01-02",
        overview := none, genreIds := [18, 28],
        posterPath := some "/p.jpg" }
    let movB : Movie :=
      { id := "b", tmdbId := some 9, title := "B", year := "2002",
        genre := [], description := "", imageUrl := "", isWatched := true,
        rating := some 4, userReview := some "", addedAt := 2,
        watchedAt := some 3, platform := none, pickedBy := none,
        tags := [] }
    let r1 : SearchResult :=
      { tmdbId := 7, title := "T", year := "2011",
        genre := ["Drama", "Ação"],
        description := "Sugestão baseada nos seus gostos.",
        posterPath := some "/p.jpg" }
    (mapResults [it1] [movB]).length ≤ 6 ∧
      (∀ m ∈ [movB], m.tmdbId ≠ some r1.tmdbId) ∧
      jsTruthyStr r1.posterPath = true := by
  intro it1 movB r1
  exact ⟨(mapResults_spec [it1] [movB]).1,
    (mapResults_spec [it1] [movB]).2 r1 (by decide)⟩

/-! ## RatingModal (part_002) -/

/-- The star values rendered as rating buttons: `[1, 2, 3, 4, 5].map(...)`,
each button's click handler calling `setRating(star)`. -/
def starValues : List Nat := [1, 2, 3, 4, 5]

/-- The RatingModal component's `useState` slices. -/
structure ModalState where
  rating : Nat
  review : String
  hoverRating : Nat
deriving DecidableEq, Repr

/-- Initial state: `rating` 0, empty review, hover 0. -/
def initialModalState : ModalState :=
  { rating := 0, review := "", hoverRating := 0 }

/-- The interactions the rendered modal exposes: clicking or hovering one of
the five star buttons, editing the review textarea, and submitting the
form (its only text control is a textarea, so submission happens through
the submit button alone). -/
inductive ModalEvent where
  | clickStar (i : Fin 5)
  | mouseEnterStar (i : Fin 5)
  | mouseLeaveStars
  | changeReview (s : String)
  | submit
deriving DecidableEq, Repr

/-- One step of the modal: the next state and, when the submit button fires,
the `(rating, review)` pair passed to the `onSave` callback (which is
`handleRateMovie` on the movie's id). The submit button carries
`disabled={rating === 0}`, so no save is issued while the rating is 0. -/
def modalStep (st : ModalState) :
    ModalEvent → ModalState × Option (Nat × String)
  | ModalEvent.clickStar i =>
      ({ st with rating := starValues.get ⟨i.val, i.isLt⟩ }, none)
  | ModalEvent.mouseEnterStar i =>
      ({ st with hoverRating := starValues.get ⟨i.val, i.isLt⟩ }, none)
  | ModalEvent.mouseLeaveStars => ({ st with hoverRating := 0 }, none)
  | ModalEvent.changeReview s => ({ st with review := s }, none)
  | ModalEvent.submit =>
      if st.rating == 0 then (st, none) else (st, some (st.rating, st.review))

/-- Runs a sequence of events, collecting every `onSave` call issued. -/
def runModal (st : ModalState) : List ModalEvent → List (Nat × String)
  | [] => []
  | e :: es =>
    match modalStep st e with
    | (st2, some c) => c :: runModal st2 es
    | (st2, none) => runModal st2 es

/-- From any state whose rating is 0 or already in 1..5, every save the
modal issues carries a rating in 1..5. -/
theorem runModal_rating_range (events : List ModalEvent) (st : ModalState)
    (hst : st.rating = 0 ∨ 1 ≤ st.rating ∧ st.rating ≤ 5) :
    ∀ c ∈ runModal st events, 1 ≤ c.1 ∧ c.1 ≤ 5 := by
  induction events generalizing st with
  | nil => intro c hc; cases hc
  | cons e es ih =>
    intro c hc
    have hstar : ∀ i : Fin 5, 1 ≤ starValues.get ⟨i.val, i.isLt⟩ ∧
        starValues.get ⟨i.val, i.isLt⟩ ≤ 5 := by decide
    cases e with
    | clickStar i =>
      exact ih { st with rating := starValues.get ⟨i.val, i.isLt⟩ }
        (Or.inr (hstar i)) c hc
    | mouseEnterStar i =>
      exact ih { st with hoverRating := starValues.get ⟨i.val, i.isLt⟩ }
        hst c hc
    | mouseLeaveStars => exact ih { st with hoverRating := 0 } hst c hc
    | changeReview s => exact ih { st with review := s } hst c hc
    | submit =>
      by_cases h0 : st.rating = 0
      · have hstep : modalStep st ModalEvent.submit = (st, none) := by
          show (if st.rating == 0 then (st, none)
            else (st, some (st.rating, st.review))) = (st, none)
          rw [if_pos (by simpa using h0)]
        have hrun : runModal st (ModalEvent.submit :: es) = runModal st es := by
          show (match modalStep st ModalEvent.submit with
            | (st2, some c) => c :: runModal st2 es
            | (st2, none) => runModal st2 es) = runModal st es
          rw [hstep]
        rw [hrun] at hc
        exact ih st hst c hc
      · have hstep : modalStep st ModalEvent.submit =
            (st, some (st.rating, st.review)) := by
          show (if st.rating == 0 then (st, none)
            else (st, some (st.rating, st.review))) =
            (st, some (st.rating, st.review))
          rw [if_neg (by simpa using h0)]
        have hrun : runModal st (ModalEvent.submit :: es) =
            (st.rating, st.review) :: runModal st es := by
          show (match modalStep st ModalEvent.submit with
            | (st2, some c) => c :: runModal st2 es
            | (st2, none) => runModal st2 es) =
            (st.rating, st.review) :: runModal st es
          rw [hstep]
        rw [hrun] at hc
        rcases List.mem_cons.mp hc with hc | hc
        · rw [hc]
          rcases hst with hst | hst
          · exact absurd hst h0
          · exact hst
        · exact ih st hst c hc

/-! ## C10: the rating dialog only saves ratings in 1..5 -/

/-- C10: starting from the modal's initial state (rating 0), every `onSave`
call the dialog can issue — over any sequence of star clicks, hovers,
review edits and submits — carries a rating in {1,...,5}: the star buttons
only set values 1 through 5 and the submit button is disabled while the
rating is 0, so `handleRateMovie` (which never checks) is only invoked with
a rating satisfying `markWatched`'s 1..5 precondition. -/
theorem ratingModal_save_range (events : List ModalEvent)
    (c : Nat × String) (hc : c ∈ runModal initialModalState events) :
    1 ≤ c.1 ∧ c.1 ≤ 5 :=
  runModal_rating_range events initialModalState (Or.inl rfl) c hc

/-- Witness for C10: clicking the fourth star then submitting issues the
save call (4, ""), whose rating is within 1..5. -/
theorem ratingModal_save_range_instance :
    (4, "") ∈ runModal initialModalState
        [ModalEvent.clickStar ⟨3, by decide⟩, ModalEvent.submit] ∧
      1 ≤ (4, "").1 ∧ (4, "").1 ≤ 5 :=
  ⟨by decide, ratingModal_save_range
    [ModalEvent.clickStar ⟨3, by decide⟩, ModalEvent.submit]
    (4, "") (by decide)⟩
